import Mathlib

/-!
Verification of the core game logic of the "Jogo da Multiplicação" repository
(`src/App.tsx`, first document): board layout data, operand generation,
answer validation, win-condition evaluation and the turn/phase state machine.

Modelling conventions:
* JavaScript numbers that hold game values (wheel faces, board values,
  operands, results) are modelled as `Int`.
* `Math.floor(Math.random() * 10)` is modelled by injecting an arbitrary
  natural number `r` and using `r % 10`, so the drawn value ranges over the
  same 0..9 domain without side conditions.
* React `useState` fields become fields of an explicit `AppState` record;
  each event handler becomes a function `AppState → AppState`.
* `setTimeout(changeTurn, 2000)` is modelled by the flag `pendingHandoff`;
  the presentation fires the scheduled callback by calling `changeTurn`.
* Message strings, audio and camera state are presentation-only and omitted.
-/

/-- Player identifiers, source: `type Player = "player1" | "player2"`. -/
inductive Player where
  | player1
  | player2
deriving DecidableEq, Repr, Fintype

/-- Arithmetic operations, source: `type Operation = "+" | "-" | "×" | "÷"`:
`add` is `"+"`, `sub` is `"-"`, `mul` is `"×"`, `div` is `"÷"`. -/
inductive Operation where
  | add
  | sub
  | mul
  | div
deriving DecidableEq, Repr, Fintype

/-- Win conditions, source: `winCondition: "first_to_5" | "connect_3" | "most_on_full"`. -/
inductive WinCondition where
  | first_to_5
  | connect_3
  | most_on_full
deriving DecidableEq, Repr, Fintype

/-- Game phases, source: `type GameState = "SETUP" | "COIN_FLIP" | ... | "GAME_OVER"`. -/
inductive GameState where
  | SETUP
  | COIN_FLIP
  | PLAYER_1_SPIN_1
  | PLAYER_1_SPIN_2
  | PLAYER_1_ANSWER
  | PLAYER_2_SPIN_1
  | PLAYER_2_SPIN_2
  | PLAYER_2_ANSWER
  | GAME_OVER
deriving DecidableEq, Repr, Fintype

/-- The fixed board layouts, source constant `PREDEFINED_BOARDS`. -/
def PREDEFINED_BOARDS : Operation → List (List Int)
  | .mul =>
    [[30, 18, 63, 64, 28, 7, 8],
     [32, 45, 60, 70, 27, 6, 9],
     [35, 48, 56, 72, 25, 5, 10],
     [36, 1, 54, 80, 24, 4, 12],
     [40, 16, 50, 81, 21, 3, 14],
     [42, 100, 49, 90, 20, 2, 15]]
  | .add =>
    [[14, 8, 21, 12, 17, 9, 23],
     [6, 25, 11, 18, 7, 15, 20],
     [24, 10, 19, 5, 22, 13, 16],
     [1, 2, 3, 4, 26, 27, 28],
     [29, 30, 31, 32, 33, 34, 35],
     [36, 37, 38, 39, 40, 41, 42]]
  | .sub =>
    [[2, 5, 3, 7, 1, 6, 20],
     [8, 4, 9, 0, 10, 15, 13],
     [12, 17, 16, 14, 19, 11, 18],
     [21, 22, 23, 24, 25, 26, 27],
     [28, 29, 30, 31, 32, 33, 34],
     [35, 36, 37, 38, 39, 40, 41]]
  | .div =>
    [[9, 2, 8, 6, 10, 14, 18],
     [4, 5, 7, 3, 1, 17, 11],
     [21, 20, 19, 12, 16, 15, 13],
     [22, 23, 24, 25, 26, 27, 28],
     [29, 30, 32, 35, 36, 40, 42],
     [45, 48, 50, 54, 56, 60, 81]]

/-- Values of `DEFAULT_SPINNER_SEGMENTS` (colors are presentation, omitted). -/
def DEFAULT_SPINNER_SEGMENTS : List Int :=
  [1, 2, 3, 4, 5, 6, 7, 8, 9, 10]

/-- The value domain of the operand generator, per operation: the spec's
"two operands in 1..10, with subtraction ordered minuend ≥ subtrahend and
division quotients 1..10".  A value is producible when some generator draw
yields it as the round's expected result. -/
def producible : Operation → Int → Prop
  | .add, v => ∃ a ∈ Finset.Icc (1 : ℤ) 10, ∃ b ∈ Finset.Icc (1 : ℤ) 10, v = a + b
  | .sub, v => ∃ a ∈ Finset.Icc (1 : ℤ) 10, ∃ b ∈ Finset.Icc (1 : ℤ) 10, b ≤ a ∧ v = a - b
  | .mul, v => ∃ a ∈ Finset.Icc (1 : ℤ) 10, ∃ b ∈ Finset.Icc (1 : ℤ) 10, v = a * b
  | .div, v => ∃ t ∈ Finset.Icc (1 : ℤ) 10, ∃ m ∈ Finset.Icc (1 : ℤ) 10, v = t * m / t

instance (op : Operation) (v : Int) : Decidable (producible op v) := by
  cases op <;> (simp only [producible]; infer_instance)


/-- Board state: a 6×7 matrix of `Player | null` cells, modelled as a total
function read only at row indices 0..5 and column indices 0..6
(source: `useState<(Player | null)[][]>`). -/
def BoardFn : Type := Nat → Nat → Option Player

/-- The all-`null` matrix, source `initialBoardState`. -/
def initialBoardState : BoardFn := fun _ _ => none

/-- Source `newBoardState[row][col] = currentPlayer` after row-copying: a pure
single-cell update. -/
def setCell (b : BoardFn) (row col : Nat) (p : Player) : BoardFn :=
  fun r c => if r = row ∧ c = col then some p else b r c

/-- Source `currentBoard.flat()`: the 42 cells in row-major order. -/
def flatCells (b : BoardFn) : List (Option Player) :=
  ((List.range 6).map (fun r => (List.range 7).map (fun c => b r c))).flatten

/-- Source `!currentBoard.flat().includes(null)`. -/
def boardFull (b : BoardFn) : Bool :=
  !((flatCells b).contains none)

/-- Source `currentBoard.flat().filter(cell => cell === player).length`. -/
def countPlayer (b : BoardFn) (player : Player) : Nat :=
  ((flatCells b).filter (fun cell => decide (cell = some player))).length

/-- Source helper `checkLine` inside `checkWinCondition`: scan a line for
three consecutive cells owned by `player` (`for i in 0 .. line.length - 3`). -/
def checkLine (line : List (Option Player)) (player : Player) : Bool :=
  (List.range (line.length - 2)).any (fun i =>
    decide (line.getD i none = some player ∧
      line.getD (i + 1) none = some player ∧
      line.getD (i + 2) none = some player))

/-- Row `r` of the board as the array `currentBoard[r]`. -/
def rowOf (b : BoardFn) (r : Nat) : List (Option Player) :=
  (List.range 7).map (fun c => b r c)

/-- Source `currentBoard.map(row => row[c])`: column `c` as an array. -/
def colOf (b : BoardFn) (c : Nat) : List (Option Player) :=
  (List.range 6).map (fun r => b r c)

/-- The `connect_3` scan of `checkWinCondition`: all rows, all columns, all
down-right diagonals (`r < numRows - 2`, `c < numCols - 2`) and all up-right
diagonals (`r` from 2 to `numRows - 1`, `c < numCols - 2`), with
`numRows = 6`, `numCols = 7`. -/
def checkWinConnect3 (b : BoardFn) (player : Player) : Bool :=
  ((List.range 6).any (fun r => checkLine (rowOf b r) player)) ||
  ((List.range 7).any (fun c => checkLine (colOf b c) player)) ||
  ((List.range 4).any (fun r => (List.range 5).any (fun c =>
    decide (b r c = some player ∧ b (r + 1) (c + 1) = some player ∧
      b (r + 2) (c + 2) = some player)))) ||
  ((List.range' 2 4).any (fun r => (List.range 5).any (fun c =>
    decide (b r c = some player ∧ b (r - 1) (c + 1) = some player ∧
      b (r - 2) (c + 2) = some player))))

/-- Source `checkWinCondition(currentBoard, player)`.  The source returns a
boolean and, when it returns `true`, performs `setWinner(w)` and
`setGameState("GAME_OVER")`; we return `none` for "no win declared" and
`some w` for "game over with winner `w`" (`w = none` is the drawn
`most_on_full` finish, where the source calls `setWinner(null)`). -/
def checkWin (wc : WinCondition) (b : BoardFn) (player : Player) : Option (Option Player) :=
  match wc with
  | .first_to_5 =>
    if 5 ≤ countPlayer b player then some (some player) else none
  | .connect_3 =>
    if checkWinConnect3 b player then some (some player) else none
  | .most_on_full =>
    if boardFull b then
      let p1Count := countPlayer b .player1
      let p2Count := countPlayer b .player2
      if p1Count > p2Count then some (some .player1)
      else if p2Count > p1Count then some (some .player2)
      else some none
    else none

/-- Source `getCorrectAnswer(op, val1, val2)`; for `"÷"` it returns `null`
unless `val1 % val2 === 0`. -/
def getCorrectAnswer : Operation → Int → Int → Option Int
  | .mul, val1, val2 => some (val1 * val2)
  | .add, val1, val2 => some (val1 + val2)
  | .sub, val1, val2 => some (val1 - val2)
  | .div, val1, val2 => if val1 % val2 = 0 then some (val1 / val2) else none

/-- The core fields of the `App` component's `useState` hooks.
`operation` and `winCondition` are the core fields of `gameSettings`;
`pendingHandoff` records a scheduled `setTimeout(changeTurn, 2000)`. -/
structure AppState where
  gameState : GameState
  currentPlayer : Player
  operation : Operation
  winCondition : WinCondition
  isSpinning1 : Bool
  isSpinning2 : Bool
  spinner1Value : Option Int
  spinner2Value : Option Int
  winner : Option Player
  spinner1Target : Option Int
  spinner2Target : Option Int
  boardLayout : List (List Int)
  spinner1Segments : List Int
  divisionTableNumber : Option Int
  boardState : BoardFn
  flashingCell : Option (Nat × Nat)
  pendingHandoff : Bool

/-- Template `PLAYER_${...}_SPIN_1` as a function of the player. -/
def spin1StateOf : Player → GameState
  | .player1 => .PLAYER_1_SPIN_1
  | .player2 => .PLAYER_2_SPIN_1

/-- Template `PLAYER_${...}_SPIN_2` as a function of the player. -/
def spin2StateOf : Player → GameState
  | .player1 => .PLAYER_1_SPIN_2
  | .player2 => .PLAYER_2_SPIN_2

/-- Template `PLAYER_${...}_ANSWER` as a function of the player. -/
def answerStateOf : Player → GameState
  | .player1 => .PLAYER_1_ANSWER
  | .player2 => .PLAYER_2_ANSWER

/-- Source `gameState.endsWith("ANSWER")`. -/
def isAnswerState : GameState → Bool
  | .PLAYER_1_ANSWER => true
  | .PLAYER_2_ANSWER => true
  | _ => false

/-- The other player, source `currentPlayer === "player1" ? "player2" : "player1"`. -/
def otherPlayer : Player → Player
  | .player1 => .player2
  | .player2 => .player1

/-- JavaScript truthiness of `divisionTableNumber` (`null` and `0` are falsy). -/
def divTruthy : Option Int → Bool
  | none => false
  | some t => decide (t ≠ 0)

/-- Source `prepareTurn(settings)`: for `"÷"`, draw the turn's table number
(`Math.floor(Math.random() * 10) + 1`, injected as `r % 10 + 1`) and replace
wheel 1's faces by its ten multiples; otherwise restore the default faces and
clear the table number. -/
def prepareTurn (r : Nat) (s : AppState) : AppState :=
  if s.operation = .div then
    let tableNumber : Int := (↑(r % 10) : Int) + 1
    { s with divisionTableNumber := some tableNumber,
             spinner1Segments :=
               (List.range 10).map (fun (i : Nat) => tableNumber * ((i : Int) + 1)) }
  else
    { s with spinner1Segments := DEFAULT_SPINNER_SEGMENTS,
             divisionTableNumber := none }

/-- Source `handleSpin1Start`: the functional `setIsSpinning1` updater returns
early (changing nothing) when the wheel is already spinning; otherwise it
pre-draws both wheel targets.  The two `Math.floor(Math.random() * 10)` draws
are injected as `r1 % 10` and `r2 % 10`. -/
def handleSpin1Start (r1 r2 : Nat) (s : AppState) : AppState :=
  if s.isSpinning1 then s
  else
    let s' :=
      if s.operation = .div ∧ divTruthy s.divisionTableNumber then
        let randomMultiplierIndex := r1 % 10
        let dividend := s.spinner1Segments.getD randomMultiplierIndex 0
        { s with spinner1Target := some dividend,
                 spinner2Target := s.divisionTableNumber }
      else
        let num1 : Int := (↑(r1 % 10) : Int) + 1
        let num2 : Int := (↑(r2 % 10) : Int) + 1
        if s.operation = .sub then
          { s with spinner1Target := some (max num1 num2),
                   spinner2Target := some (min num1 num2) }
        else
          { s with spinner1Target := some num1, spinner2Target := some num2 }
    { s' with isSpinning1 := true }

/-- Source `handleSpin1End(value)`. -/
def handleSpin1End (value : Int) (s : AppState) : AppState :=
  { s with isSpinning1 := false, spinner1Value := some value,
           gameState := spin2StateOf s.currentPlayer }

/-- Source `handleSpin2Start`: the same already-spinning latch; wheel 2's
target was pre-drawn by `handleSpin1Start`. -/
def handleSpin2Start (s : AppState) : AppState :=
  if s.isSpinning2 then s else { s with isSpinning2 := true }

/-- Source `handleSpin2End(value)`. -/
def handleSpin2End (value : Int) (s : AppState) : AppState :=
  { s with isSpinning2 := false, spinner2Value := some value,
           gameState := answerStateOf s.currentPlayer }

/-- Source `changeTurn` (the callback that `setTimeout(changeTurn, 2000)`
schedules; calling it models the scheduled handoff firing, so it consumes
`pendingHandoff`).  `r` injects `prepareTurn`'s random draw. -/
def changeTurn (r : Nat) (s : AppState) : AppState :=
  let nextPlayer := otherPlayer s.currentPlayer
  let s1 := prepareTurn r
    { s with currentPlayer := nextPlayer, gameState := spin1StateOf nextPlayer }
  { s1 with spinner1Value := none, spinner2Value := none,
            spinner1Target := none, spinner2Target := none,
            pendingHandoff := false }

/-- Lines 1385–1392 of the source (`if (!isGameOver) { ... }`): the follow-up
after a click that did not already end the game.  `oldBoard` is the React
`boardState` binding, which still holds the pre-click matrix (the source reads
the stale closure value here, not `newBoardState`). -/
def afterClickNoWin (oldBoard : BoardFn) (s1 : AppState) : AppState :=
  if s1.winCondition = .most_on_full ∧ boardFull oldBoard then
    match checkWin .most_on_full oldBoard s1.currentPlayer with
    | some w => { s1 with winner := w, gameState := .GAME_OVER }
    | none => s1
  else
    { s1 with pendingHandoff := true }

/-- Source `handleCellClick(cellValue, row, col)`.  The source's early-return
guard (`!gameState.endsWith("ANSWER") || gameState === "GAME_OVER" ||
spinner1Value === null || spinner2Value === null`) is re-ordered into the
equivalent match-then-test form; every guard failure returns the state
unchanged. -/
def handleCellClick (cellValue : Int) (row col : Nat) (s : AppState) : AppState :=
  match s.spinner1Value, s.spinner2Value with
  | some v1, some v2 =>
    if isAnswerState s.gameState ∧ s.gameState ≠ .GAME_OVER then
      let correctResult := getCorrectAnswer s.operation v1 v2
      let isCorrect := match correctResult with
        | some res => decide (cellValue = res)
        | none => false
      if isCorrect then
        let newBoardState := setCell s.boardState row col s.currentPlayer
        let s1 := { s with boardState := newBoardState }
        match checkWin s.winCondition newBoardState s.currentPlayer with
        | some w => { s1 with winner := w, gameState := .GAME_OVER }
        | none => afterClickNoWin s.boardState s1
      else
        afterClickNoWin s.boardState { s with flashingCell := some (row, col) }
    else s
  | _, _ => s

/-- Source `handleRestart`: back to `SETUP` with all core state reset
(`gameSettings` returns to `DEFAULT_GAME_SETTINGS`, whose core fields are
`operation: "×"` and `winCondition: "first_to_5"`; `boardLayout` and
`flashingCell` are not reset by the source). -/
def handleRestart (s : AppState) : AppState :=
  { s with gameState := .SETUP, currentPlayer := .player1,
           operation := .mul, winCondition := .first_to_5,
           spinner1Value := none, spinner2Value := none,
           spinner1Target := none, spinner2Target := none,
           boardState := initialBoardState,
           spinner1Segments := DEFAULT_SPINNER_SEGMENTS,
           divisionTableNumber := none,
           isSpinning1 := false, isSpinning2 := false, winner := none }

/-- Source `handleGameStart(settings)`: install the chosen operation and win
condition, load that operation's layout, prepare the first turn and enter the
coin flip. -/
def handleGameStart (r : Nat) (op : Operation) (wc : WinCondition) (s : AppState) : AppState :=
  let s1 := { s with boardLayout := PREDEFINED_BOARDS op,
                     operation := op, winCondition := wc }
  { prepareTurn r s1 with gameState := .COIN_FLIP }

/-- Source `handleCoinFlipComplete(result)`: `resultCara` is
`result === "cara"`; the delayed `setGameState` in the source's `setTimeout`
is collapsed into the same step. -/
def handleCoinFlipComplete (r : Nat) (resultCara : Bool) (s : AppState) : AppState :=
  let startingPlayer := if resultCara then Player.player1 else Player.player2
  let s1 := prepareTurn r { s with currentPlayer := startingPlayer }
  { s1 with gameState := spin1StateOf startingPlayer }

/-- Operand pairs the generator can produce (from `handleSpin1Start`'s draws):
both operands in 1..10; subtraction ordered minuend ≥ subtrahend; division
pairs are (table·multiplier, table) with table and multiplier in 1..10. -/
def generatorPair : Operation → Int → Int → Prop
  | .add, v1, v2 => v1 ∈ Finset.Icc (1 : ℤ) 10 ∧ v2 ∈ Finset.Icc (1 : ℤ) 10
  | .mul, v1, v2 => v1 ∈ Finset.Icc (1 : ℤ) 10 ∧ v2 ∈ Finset.Icc (1 : ℤ) 10
  | .sub, v1, v2 => v1 ∈ Finset.Icc (1 : ℤ) 10 ∧ v2 ∈ Finset.Icc (1 : ℤ) 10 ∧ v2 ≤ v1
  | .div, v1, v2 =>
    ∃ t ∈ Finset.Icc (1 : ℤ) 10, ∃ m ∈ Finset.Icc (1 : ℤ) 10, v1 = t * m ∧ v2 = t

/-- A concrete mid-game state: player 1's answer phase of a multiplication
game after wheels resolved to 7 and 8, empty board. -/
def sampleAnswerState : AppState :=
  { gameState := .PLAYER_1_ANSWER, currentPlayer := .player1,
    operation := .mul, winCondition := .first_to_5,
    isSpinning1 := false, isSpinning2 := false,
    spinner1Value := some 7, spinner2Value := some 8, winner := none,
    spinner1Target := some 7, spinner2Target := some 8,
    boardLayout := PREDEFINED_BOARDS .mul,
    spinner1Segments := DEFAULT_SPINNER_SEGMENTS, divisionTableNumber := none,
    boardState := initialBoardState, flashingCell := none,
    pendingHandoff := false }

/-- A concrete state in which both wheels are flagged as spinning. -/
def sampleSpinningState : AppState :=
  { sampleAnswerState with gameState := .PLAYER_1_SPIN_1,
                           isSpinning1 := true, isSpinning2 := true,
                           spinner1Value := none, spinner2Value := none }

/-- A concrete division-mode answer state whose operands 7 and 2 have no
integer quotient. -/
def sampleDivAnswerState : AppState :=
  { sampleAnswerState with operation := .div,
                           spinner1Value := some 7, spinner2Value := some 2,
                           divisionTableNumber := some 2,
                           boardLayout := PREDEFINED_BOARDS .div }

/-- A fully-claimed board split 21/21 between the players. -/
def tieBoard : BoardFn :=
  fun r c => if (r + c) % 2 = 0 then some .player1 else some .player2

/-- Start of a multiplication game (first-to-5) right after the coin flip
gave player 1 the first turn. -/
def cexStart : AppState :=
  { gameState := .PLAYER_1_SPIN_1, currentPlayer := .player1,
    operation := .mul, winCondition := .first_to_5,
    isSpinning1 := false, isSpinning2 := false,
    spinner1Value := none, spinner2Value := none, winner := none,
    spinner1Target := none, spinner2Target := none,
    boardLayout := PREDEFINED_BOARDS .mul,
    spinner1Segments := DEFAULT_SPINNER_SEGMENTS, divisionTableNumber := none,
    boardState := initialBoardState, flashingCell := none,
    pendingHandoff := false }

/-- Player 1's first turn: both wheels resolve to 7 and 8 and player 1 clicks
the layout cell valued 56 at row 2, column 2 — a correct claim. -/
def cexAfterP1Claim : AppState :=
  handleCellClick 56 2 2
    (handleSpin2End 8 (handleSpin2Start
      (handleSpin1End 7 (handleSpin1Start 6 7 cexStart))))

/-- The scheduled handoff fires, then player 2's turn also produces the
operands 7 and 8: player 2's answer phase with cell (2,2) already claimed by
player 1. -/
def cexBeforeP2Claim : AppState :=
  handleSpin2End 8 (handleSpin2Start
    (handleSpin1End 7 (handleSpin1Start 6 7 (changeTurn 0 cexAfterP1Claim))))

/-- Player 2 clicks the same already-claimed cell (the presentation raises
click events on claimed cells too — `Cell3D` attaches `onClick`
unconditionally, and `handleCellClick` never inspects `boardState[row][col]`
before writing). -/
def cexAfterP2Claim : AppState :=
  handleCellClick 56 2 2 cexBeforeP2Claim

/-- The spec's `connect_3` notion: three consecutive cells owned by the
player in a row, in a column, or on a down-right or up-right diagonal,
on the 6×7 board. -/
def connectThreeSpec (b : BoardFn) (p : Player) : Prop :=
  (∃ r c, r < 6 ∧ c + 2 < 7 ∧
    b r c = some p ∧ b r (c + 1) = some p ∧ b r (c + 2) = some p) ∨
  (∃ r c, r + 2 < 6 ∧ c < 7 ∧
    b r c = some p ∧ b (r + 1) c = some p ∧ b (r + 2) c = some p) ∨
  (∃ r c, r + 2 < 6 ∧ c + 2 < 7 ∧
    b r c = some p ∧ b (r + 1) (c + 1) = some p ∧ b (r + 2) (c + 2) = some p) ∨
  (∃ r c, r + 2 < 6 ∧ c + 2 < 7 ∧
    b (r + 2) c = some p ∧ b (r + 1) (c + 1) = some p ∧ b r (c + 2) = some p)

/-- A board with a down-right diagonal triple for player 1. -/
def diagBoard : BoardFn :=
  fun r c => if r = c ∧ r < 3 then some .player1 else none

/-- C2 fails: the addition board contains 21 (and 1, and everything up to 42),
which no pair of 1..10 operands sums to; the subtraction board contains 0
(not positive) and 20 (larger than any difference of 1..10 operands); the
division board contains 14 (larger than any producible quotient). -/
theorem C2_counterexample :
    (21 : ℤ) ∈ (PREDEFINED_BOARDS .add).flatten ∧ ¬ producible .add 21 ∧
    (0 : ℤ) ∈ (PREDEFINED_BOARDS .sub).flatten ∧ ¬ (0 : ℤ) > 0 ∧
    (20 : ℤ) ∈ (PREDEFINED_BOARDS .sub).flatten ∧ ¬ producible .sub 20 ∧
    (14 : ℤ) ∈ (PREDEFINED_BOARDS .div).flatten ∧ ¬ producible .div 14 := by
  decide

/-- C2 amended: every layout is a 6-row × 7-column matrix whose 42 values are
pairwise distinct; the multiplication board's values are all positive and all
producible by the multiplication generator; the addition and division boards
are positive and the subtraction board non-negative — but producibility of
every value holds only for the multiplication board. -/
theorem C2_theorem :
    (∀ op : Operation, (PREDEFINED_BOARDS op).length = 6 ∧
      (∀ row ∈ PREDEFINED_BOARDS op, row.length = 7) ∧
      (PREDEFINED_BOARDS op).flatten.Nodup) ∧
    (∀ v ∈ (PREDEFINED_BOARDS .mul).flatten, 0 < v ∧ producible .mul v) ∧
    (∀ v ∈ (PREDEFINED_BOARDS .add).flatten, 0 < v) ∧
    (∀ v ∈ (PREDEFINED_BOARDS .div).flatten, 0 < v) ∧
    (∀ v ∈ (PREDEFINED_BOARDS .sub).flatten, 0 ≤ v) := by
  decide

lemma prepareTurn_frame (r : Nat) (s : AppState) :
    (prepareTurn r s).gameState = s.gameState ∧
    (prepareTurn r s).currentPlayer = s.currentPlayer ∧
    (prepareTurn r s).boardState = s.boardState ∧
    (prepareTurn r s).winner = s.winner ∧
    (prepareTurn r s).winCondition = s.winCondition ∧
    (prepareTurn r s).operation = s.operation := by
  unfold prepareTurn
  split <;> exact ⟨rfl, rfl, rfl, rfl, rfl, rfl⟩

lemma changeTurn_fields (r : Nat) (s : AppState) :
    (changeTurn r s).gameState = spin1StateOf (otherPlayer s.currentPlayer) ∧
    (changeTurn r s).currentPlayer = otherPlayer s.currentPlayer ∧
    (changeTurn r s).spinner1Value = none ∧
    (changeTurn r s).spinner2Value = none ∧
    (changeTurn r s).spinner1Target = none ∧
    (changeTurn r s).spinner2Target = none ∧
    (changeTurn r s).boardState = s.boardState ∧
    (changeTurn r s).pendingHandoff = false := by
  unfold changeTurn prepareTurn
  dsimp only
  split <;> exact ⟨rfl, rfl, rfl, rfl, rfl, rfl, rfl, rfl⟩

lemma isAnswerState_ne_gameOver {gs : GameState} (h : isAnswerState gs = true) :
    gs ≠ GameState.GAME_OVER := by
  cases gs <;> simp_all [isAnswerState]

/-- Shared shape of `handleCellClick` on an incorrect (or undefined-result)
selection, outside the stale-board `most_on_full` corner: the only changes
are the rejected-cell highlight and the scheduled handoff. -/
lemma handleCellClick_incorrect (s : AppState) (cellValue : Int) (row col : Nat)
    (v1 v2 : Int)
    (hans : isAnswerState s.gameState = true)
    (hs1 : s.spinner1Value = some v1) (hs2 : s.spinner2Value = some v2)
    (hne : ∀ res, getCorrectAnswer s.operation v1 v2 = some res → cellValue ≠ res)
    (hmf : s.winCondition = .most_on_full → boardFull s.boardState = false) :
    handleCellClick cellValue row col s =
      { s with flashingCell := some (row, col), pendingHandoff := true } := by
  have hno : s.gameState ≠ .GAME_OVER := isAnswerState_ne_gameOver hans
  unfold handleCellClick
  rw [hs1, hs2]
  simp only [hans, hno, ne_eq, not_false_eq_true, and_self, if_true, true_and, if_pos]
  have hcorr :
      (match getCorrectAnswer s.operation v1 v2 with
        | some res => decide (cellValue = res)
        | none => false) = false := by
    cases hgc : getCorrectAnswer s.operation v1 v2 with
    | none => rfl
    | some res => simpa using hne res hgc
  rw [hcorr]
  simp only [Bool.false_eq_true, if_false]
  unfold afterClickNoWin
  rw [if_neg]
  rintro ⟨h1, h2⟩
  rw [hmf h1] at h2
  exact Bool.false_ne_true h2

/-- C8: spin start is an idempotent latch — when a wheel is already spinning,
its spin-start handler returns the state unchanged, so no targets are
re-drawn and starting a spin twice equals starting it once. -/
theorem C8_theorem (s : AppState) (r1 r2 : Nat) :
    (s.isSpinning1 = true → handleSpin1Start r1 r2 s = s) ∧
    (s.isSpinning2 = true → handleSpin2Start s = s) := by
  constructor
  · intro h; unfold handleSpin1Start; rw [if_pos h]
  · intro h; unfold handleSpin2Start; rw [if_pos h]

/-- Witness for C8 at a concrete spinning state. -/
theorem C8_witness :
    handleSpin1Start 3 4 sampleSpinningState = sampleSpinningState ∧
    handleSpin2Start sampleSpinningState = sampleSpinningState :=
  ⟨(C8_theorem sampleSpinningState 3 4).1 rfl,
   (C8_theorem sampleSpinningState 3 4).2 rfl⟩

/-- C9: an incorrect (or undefined-result) cell selection during an Answer
phase changes nothing but the transient rejected-cell highlight and the
scheduled turn handoff — in particular the board and the winner are
untouched.  (The hypothesis on `most_on_full` excludes the stale-board corner
that is unreachable during play: under `most_on_full` the game ends the
moment the board fills, so no Answer phase sees a full board.) -/
theorem C9_theorem (s : AppState) (cellValue : Int) (row col : Nat) (v1 v2 : Int)
    (hans : isAnswerState s.gameState = true)
    (hs1 : s.spinner1Value = some v1) (hs2 : s.spinner2Value = some v2)
    (hne : ∀ res, getCorrectAnswer s.operation v1 v2 = some res → cellValue ≠ res)
    (hmf : s.winCondition = .most_on_full → boardFull s.boardState = false) :
    handleCellClick cellValue row col s =
      { s with flashingCell := some (row, col), pendingHandoff := true } :=
  handleCellClick_incorrect s cellValue row col v1 v2 hans hs1 hs2 hne hmf

/-- Witness for C9: clicking 55 when the answer is 7 × 8 = 56. -/
theorem C9_witness :
    handleCellClick 55 2 2 sampleAnswerState =
      { sampleAnswerState with flashingCell := some (2, 2), pendingHandoff := true } :=
  C9_theorem sampleAnswerState 55 2 2 7 8 rfl rfl rfl
    (by intro res h; simp [sampleAnswerState, getCorrectAnswer] at h; omega)
    (by intro h; exact absurd h (by decide))

/-- C7: after an incorrect cell selection in a player's Answer phase, the
scheduled handoff (`changeTurn`) moves the machine to the other player's
Spin1 phase with the round data cleared — both operands and both wheel
targets are null. -/
theorem C7_theorem (s : AppState) (cellValue : Int) (row col : Nat)
    (v1 v2 : Int) (r : Nat) (p : Player)
    (hcp : s.currentPlayer = p)
    (hans : s.gameState = answerStateOf p)
    (hs1 : s.spinner1Value = some v1) (hs2 : s.spinner2Value = some v2)
    (hne : ∀ res, getCorrectAnswer s.operation v1 v2 = some res → cellValue ≠ res)
    (hmf : s.winCondition = .most_on_full → boardFull s.boardState = false) :
    (handleCellClick cellValue row col s).pendingHandoff = true ∧
    (changeTurn r (handleCellClick cellValue row col s)).gameState =
      spin1StateOf (otherPlayer p) ∧
    (changeTurn r (handleCellClick cellValue row col s)).currentPlayer =
      otherPlayer p ∧
    (changeTurn r (handleCellClick cellValue row col s)).spinner1Value = none ∧
    (changeTurn r (handleCellClick cellValue row col s)).spinner2Value = none ∧
    (changeTurn r (handleCellClick cellValue row col s)).spinner1Target = none ∧
    (changeTurn r (handleCellClick cellValue row col s)).spinner2Target = none := by
  have hans' : isAnswerState s.gameState = true := by rw [hans]; cases p <;> rfl
  rw [handleCellClick_incorrect s cellValue row col v1 v2 hans' hs1 hs2 hne hmf]
  set X : AppState := { s with flashingCell := some (row, col), pendingHandoff := true } with hX
  have hXcp : X.currentPlayer = p := hcp
  obtain ⟨h1, h2, h3, h4, h5, h6, -, -⟩ := changeTurn_fields r X
  rw [hXcp] at h1 h2
  exact ⟨rfl, h1, h2, h3, h4, h5, h6⟩

/-- Witness for C7 at the concrete incorrect click of `C9_witness`. -/
theorem C7_witness :
    (handleCellClick 55 2 2 sampleAnswerState).pendingHandoff = true ∧
    (changeTurn 0 (handleCellClick 55 2 2 sampleAnswerState)).gameState =
      spin1StateOf (otherPlayer .player1) ∧
    (changeTurn 0 (handleCellClick 55 2 2 sampleAnswerState)).currentPlayer =
      otherPlayer .player1 ∧
    (changeTurn 0 (handleCellClick 55 2 2 sampleAnswerState)).spinner1Value = none ∧
    (changeTurn 0 (handleCellClick 55 2 2 sampleAnswerState)).spinner2Value = none ∧
    (changeTurn 0 (handleCellClick 55 2 2 sampleAnswerState)).spinner1Target = none ∧
    (changeTurn 0 (handleCellClick 55 2 2 sampleAnswerState)).spinner2Target = none :=
  C7_theorem sampleAnswerState 55 2 2 7 8 0 .player1 rfl rfl rfl rfl
    (by intro res h; simp [sampleAnswerState, getCorrectAnswer] at h; omega)
    (by intro h; exact absurd h (by decide))

lemma getD_range10_map (f : Nat → Int) (k : Nat) (hk : k < 10) :
    ((List.range 10).map f).getD k 0 = f k := by
  interval_cases k <;> rfl

/-- C3: `getCorrectAnswer` returns a defined non-negative integer on every
operand pair the generator can produce; for division it returns `null`
exactly when `operand1 % operand2 ≠ 0`; and a cell selection in that case is
handled as an ordinary incorrect answer — highlight plus scheduled handoff,
no crash and no board change. -/
theorem C3_theorem :
    (∀ (op : Operation) (v1 v2 : Int), generatorPair op v1 v2 →
      ∃ n, getCorrectAnswer op v1 v2 = some n ∧ 0 ≤ n) ∧
    (∀ v1 v2 : Int, getCorrectAnswer .div v1 v2 = none ↔ ¬ v1 % v2 = 0) ∧
    (∀ (s : AppState) (cellValue : Int) (row col : Nat) (v1 v2 : Int),
      isAnswerState s.gameState = true →
      s.spinner1Value = some v1 → s.spinner2Value = some v2 →
      s.operation = .div → ¬ v1 % v2 = 0 →
      (s.winCondition = .most_on_full → boardFull s.boardState = false) →
      handleCellClick cellValue row col s =
        { s with flashingCell := some (row, col), pendingHandoff := true }) := by
  refine ⟨?_, ?_, ?_⟩
  · intro op v1 v2 hgp
    cases op with
    | add =>
      obtain ⟨h1, h2⟩ := hgp
      simp only [Finset.mem_Icc] at h1 h2
      exact ⟨v1 + v2, rfl, by omega⟩
    | sub =>
      obtain ⟨h1, h2, hle⟩ := hgp
      simp only [Finset.mem_Icc] at h1 h2
      exact ⟨v1 - v2, rfl, by omega⟩
    | mul =>
      obtain ⟨h1, h2⟩ := hgp
      simp only [Finset.mem_Icc] at h1 h2
      exact ⟨v1 * v2, rfl, mul_nonneg (by omega) (by omega)⟩
    | div =>
      obtain ⟨t, ht, m, hm, rfl, hv2⟩ := hgp
      simp only [Finset.mem_Icc] at ht hm
      rw [hv2]
      have htne : t ≠ 0 := by omega
      refine ⟨m, ?_, by omega⟩
      simp [getCorrectAnswer, Int.mul_emod_right, Int.mul_ediv_cancel_left m htne]
  · intro v1 v2
    by_cases h : v1 % v2 = 0 <;> simp [getCorrectAnswer, h]
  · intro s cellValue row col v1 v2 hans hs1 hs2 hop hmod hmf
    refine handleCellClick_incorrect s cellValue row col v1 v2 hans hs1 hs2 ?_ hmf
    intro res hres
    rw [hop] at hres
    simp [getCorrectAnswer, hmod] at hres

/-- Witness for C3: subtraction pair (9, 4); division pair (7, 2) with no
integer quotient; the same pair clicked in a concrete division game. -/
theorem C3_witness :
    (∃ n, getCorrectAnswer .sub 9 4 = some n ∧ 0 ≤ n) ∧
    (getCorrectAnswer .div 7 2 = none ↔ ¬ (7 : ℤ) % 2 = 0) ∧
    handleCellClick 3 0 0 sampleDivAnswerState =
      { sampleDivAnswerState with flashingCell := some (0, 0), pendingHandoff := true } :=
  ⟨C3_theorem.1 .sub 9 4 (by refine ⟨?_, ?_, ?_⟩ <;> decide),
   C3_theorem.2.1 7 2,
   C3_theorem.2.2 sampleDivAnswerState 3 0 0 7 2 rfl rfl rfl rfl (by decide)
     (by intro h; exact absurd h (by decide))⟩

/-- C4: in a division-mode turn, `prepareTurn` fixes the table number
`t = r % 10 + 1 ∈ 1..10`; `handleSpin1Start` then sets wheel 2's target to
exactly `t` and wheel 1's target to `t · m` for a multiplier `m ∈ 1..10`, so
`operand1 % operand2 = 0` and the expected quotient is `m ∈ 1..10`; and
`changeTurn` (the start of the next turn) re-draws the table number. -/
theorem C4_theorem (s : AppState) (r m r' : Nat)
    (hop : s.operation = .div) (hns : s.isSpinning1 = false) :
    (prepareTurn r s).divisionTableNumber = some ((↑(r % 10) : Int) + 1) ∧
    (handleSpin1Start m 0 (prepareTurn r s)).spinner2Target =
      some ((↑(r % 10) : Int) + 1) ∧
    (handleSpin1Start m 0 (prepareTurn r s)).spinner1Target =
      some (((↑(r % 10) : Int) + 1) * ((↑(m % 10) : Int) + 1)) ∧
    (((↑(r % 10) : Int) + 1) * ((↑(m % 10) : Int) + 1)) % ((↑(r % 10) : Int) + 1) = 0 ∧
    (((↑(r % 10) : Int) + 1) * ((↑(m % 10) : Int) + 1)) / ((↑(r % 10) : Int) + 1) =
      (↑(m % 10) : Int) + 1 ∧
    1 ≤ (↑(m % 10) : Int) + 1 ∧ (↑(m % 10) : Int) + 1 ≤ 10 ∧
    1 ≤ (↑(r % 10) : Int) + 1 ∧ (↑(r % 10) : Int) + 1 ≤ 10 ∧
    (changeTurn r' s).divisionTableNumber = some ((↑(r' % 10) : Int) + 1) := by
  have hps : prepareTurn r s =
      { s with divisionTableNumber := some ((↑(r % 10) : Int) + 1),
               spinner1Segments := (List.range 10).map
                 (fun (i : Nat) => ((↑(r % 10) : Int) + 1) * ((i : Int) + 1)) } := by
    unfold prepareTurn
    rw [if_pos hop]
  have htne : (↑(r % 10) : Int) + 1 ≠ 0 := by omega
  have hmlt : m % 10 < 10 := Nat.mod_lt m (by omega)
  have hrlt : r % 10 < 10 := Nat.mod_lt r (by omega)
  have hspin : handleSpin1Start m 0 (prepareTurn r s) =
      { prepareTurn r s with
          spinner1Target := some (((↑(r % 10) : Int) + 1) * ((↑(m % 10) : Int) + 1)),
          spinner2Target := some ((↑(r % 10) : Int) + 1),
          isSpinning1 := true } := by
    rw [hps]
    unfold handleSpin1Start
    rw [if_neg (by simp [hns])]
    rw [if_pos (by exact ⟨hop, by simp only [divTruthy, decide_eq_true_eq]; omega⟩)]
    dsimp only
    rw [getD_range10_map _ _ hmlt]
  refine ⟨by rw [hps], by rw [hspin, hps], by rw [hspin, hps],
    Int.mul_emod_right _ _, Int.mul_ediv_cancel_left _ htne,
    by omega, by omega, by omega, by omega, ?_⟩
  unfold changeTurn prepareTurn
  dsimp only
  rw [if_pos hop]

/-- Witness for C4 at a concrete division state, table draw 4 and
multiplier draw 6 (table number 5, dividend 35). -/
theorem C4_witness :
    (prepareTurn 4 sampleDivAnswerState).divisionTableNumber =
      some ((↑(4 % 10) : Int) + 1) ∧
    (handleSpin1Start 6 0 (prepareTurn 4 sampleDivAnswerState)).spinner2Target =
      some ((↑(4 % 10) : Int) + 1) ∧
    (handleSpin1Start 6 0 (prepareTurn 4 sampleDivAnswerState)).spinner1Target =
      some (((↑(4 % 10) : Int) + 1) * ((↑(6 % 10) : Int) + 1)) ∧
    (((↑(4 % 10) : Int) + 1) * ((↑(6 % 10) : Int) + 1)) % ((↑(4 % 10) : Int) + 1) = 0 ∧
    (((↑(4 % 10) : Int) + 1) * ((↑(6 % 10) : Int) + 1)) / ((↑(4 % 10) : Int) + 1) =
      (↑(6 % 10) : Int) + 1 ∧
    1 ≤ (↑(6 % 10) : Int) + 1 ∧ (↑(6 % 10) : Int) + 1 ≤ 10 ∧
    1 ≤ (↑(4 % 10) : Int) + 1 ∧ (↑(4 % 10) : Int) + 1 ≤ 10 ∧
    (changeTurn 2 sampleDivAnswerState).divisionTableNumber =
      some ((↑(2 % 10) : Int) + 1) :=
  C4_theorem sampleDivAnswerState 4 6 2 rfl rfl

/-- C6: the `most_on_full` evaluation declares nothing on a non-full board,
and on a full board it always ends the game, giving the win to the player
with strictly more claimed cells and declaring no winner on an equal count. -/
theorem C6_theorem (b : BoardFn) (p : Player) :
    (boardFull b = false → checkWin .most_on_full b p = none) ∧
    (boardFull b = true → countPlayer b .player1 > countPlayer b .player2 →
      checkWin .most_on_full b p = some (some .player1)) ∧
    (boardFull b = true → countPlayer b .player2 > countPlayer b .player1 →
      checkWin .most_on_full b p = some (some .player2)) ∧
    (boardFull b = true → countPlayer b .player1 = countPlayer b .player2 →
      checkWin .most_on_full b p = some none) ∧
    (boardFull b = true → (checkWin .most_on_full b p).isSome = true) := by
  refine ⟨?_, ?_, ?_, ?_, ?_⟩ <;> intro hfull
  · simp [checkWin, hfull]
  · intro hgt; simp [checkWin, hfull, hgt]
  · intro hgt
    have hn : ¬ countPlayer b .player1 > countPlayer b .player2 := by omega
    simp [checkWin, hfull, hgt, hn]
  · intro heq
    have hn1 : ¬ countPlayer b .player1 > countPlayer b .player2 := by omega
    have hn2 : ¬ countPlayer b .player2 > countPlayer b .player1 := by omega
    simp [checkWin, hfull, hn1, hn2]
  · unfold checkWin
    rw [hfull]
    dsimp only
    split
    · split
      · simp
      · split <;> simp
    · simp_all

/-- Witness for C6: an all-player-1 full board, the 21/21 tie board and the
empty board. -/
theorem C6_witness :
    checkWin .most_on_full (fun _ _ => some .player1 : BoardFn) .player1 =
      some (some .player1) ∧
    checkWin .most_on_full tieBoard .player1 = some none ∧
    checkWin .most_on_full initialBoardState .player1 = none :=
  ⟨(C6_theorem (fun _ _ => some .player1 : BoardFn) .player1).2.1 (by decide) (by decide),
   (C6_theorem tieBoard .player1).2.2.2.1 (by decide) (by decide),
   (C6_theorem initialBoardState .player1).1 (by decide)⟩

lemma rowOf_length (b : BoardFn) (r : Nat) : (rowOf b r).length = 7 := by
  simp [rowOf]

lemma colOf_length (b : BoardFn) (c : Nat) : (colOf b c).length = 6 := by
  simp [colOf]

lemma rowOf_getD (b : BoardFn) (r i : Nat) (hi : i < 7) :
    (rowOf b r).getD i none = b r i := by
  interval_cases i <;> rfl

lemma colOf_getD (b : BoardFn) (c i : Nat) (hi : i < 6) :
    (colOf b c).getD i none = b i c := by
  interval_cases i <;> rfl

lemma checkLine_rowOf (b : BoardFn) (p : Player) (r : Nat) :
    checkLine (rowOf b r) p = true ↔
      ∃ c, c + 2 < 7 ∧ b r c = some p ∧ b r (c + 1) = some p ∧ b r (c + 2) = some p := by
  unfold checkLine
  rw [rowOf_length]
  simp only [List.any_eq_true, List.mem_range, decide_eq_true_eq]
  constructor
  · rintro ⟨i, hi, h1, h2, h3⟩
    rw [rowOf_getD b r i (by omega)] at h1
    rw [rowOf_getD b r (i + 1) (by omega)] at h2
    rw [rowOf_getD b r (i + 2) (by omega)] at h3
    exact ⟨i, by omega, h1, h2, h3⟩
  · rintro ⟨c, hc, h1, h2, h3⟩
    refine ⟨c, by omega, ?_, ?_, ?_⟩ <;>
      rw [rowOf_getD b r _ (by omega)] <;> assumption

lemma checkLine_colOf (b : BoardFn) (p : Player) (c : Nat) :
    checkLine (colOf b c) p = true ↔
      ∃ r, r + 2 < 6 ∧ b r c = some p ∧ b (r + 1) c = some p ∧ b (r + 2) c = some p := by
  unfold checkLine
  rw [colOf_length]
  simp only [List.any_eq_true, List.mem_range, decide_eq_true_eq]
  constructor
  · rintro ⟨i, hi, h1, h2, h3⟩
    rw [colOf_getD b c i (by omega)] at h1
    rw [colOf_getD b c (i + 1) (by omega)] at h2
    rw [colOf_getD b c (i + 2) (by omega)] at h3
    exact ⟨i, by omega, h1, h2, h3⟩
  · rintro ⟨r, hr, h1, h2, h3⟩
    refine ⟨r, by omega, ?_, ?_, ?_⟩ <;>
      rw [colOf_getD b c _ (by omega)] <;> assumption

lemma connect3_rows_iff (b : BoardFn) (p : Player) :
    ((List.range 6).any (fun r => checkLine (rowOf b r) p)) = true ↔
      ∃ r c, r < 6 ∧ c + 2 < 7 ∧
        b r c = some p ∧ b r (c + 1) = some p ∧ b r (c + 2) = some p := by
  simp only [List.any_eq_true, List.mem_range]
  constructor
  · rintro ⟨r, hr, hcl⟩
    obtain ⟨c, hc, h1, h2, h3⟩ := (checkLine_rowOf b p r).mp hcl
    exact ⟨r, c, hr, hc, h1, h2, h3⟩
  · rintro ⟨r, c, hr, hc, h1, h2, h3⟩
    exact ⟨r, hr, (checkLine_rowOf b p r).mpr ⟨c, hc, h1, h2, h3⟩⟩

lemma connect3_cols_iff (b : BoardFn) (p : Player) :
    ((List.range 7).any (fun c => checkLine (colOf b c) p)) = true ↔
      ∃ r c, r + 2 < 6 ∧ c < 7 ∧
        b r c = some p ∧ b (r + 1) c = some p ∧ b (r + 2) c = some p := by
  simp only [List.any_eq_true, List.mem_range]
  constructor
  · rintro ⟨c, hc, hcl⟩
    obtain ⟨r, hr, h1, h2, h3⟩ := (checkLine_colOf b p c).mp hcl
    exact ⟨r, c, hr, hc, h1, h2, h3⟩
  · rintro ⟨r, c, hr, hc, h1, h2, h3⟩
    exact ⟨c, hc, (checkLine_colOf b p c).mpr ⟨r, hr, h1, h2, h3⟩⟩

lemma connect3_diagDR_iff (b : BoardFn) (p : Player) :
    ((List.range 4).any (fun r => (List.range 5).any (fun c =>
      decide (b r c = some p ∧ b (r + 1) (c + 1) = some p ∧
        b (r + 2) (c + 2) = some p)))) = true ↔
      ∃ r c, r + 2 < 6 ∧ c + 2 < 7 ∧
        b r c = some p ∧ b (r + 1) (c + 1) = some p ∧ b (r + 2) (c + 2) = some p := by
  simp only [List.any_eq_true, List.mem_range, decide_eq_true_eq]
  constructor
  · rintro ⟨r, hr, c, hc, h⟩
    exact ⟨r, c, by omega, by omega, h⟩
  · rintro ⟨r, c, hr, hc, h⟩
    exact ⟨r, by omega, c, by omega, h⟩

lemma connect3_diagUR_iff (b : BoardFn) (p : Player) :
    ((List.range' 2 4).any (fun r => (List.range 5).any (fun c =>
      decide (b r c = some p ∧ b (r - 1) (c + 1) = some p ∧
        b (r - 2) (c + 2) = some p)))) = true ↔
      ∃ r c, r + 2 < 6 ∧ c + 2 < 7 ∧
        b (r + 2) c = some p ∧ b (r + 1) (c + 1) = some p ∧ b r (c + 2) = some p := by
  simp only [List.any_eq_true, List.mem_range, List.mem_range'_1, decide_eq_true_eq]
  constructor
  · rintro ⟨r, hr, c, hc, h1, h2, h3⟩
    refine ⟨r - 2, c, by omega, by omega, ?_, ?_, ?_⟩
    · have he : r - 2 + 2 = r := by omega
      rw [he]; exact h1
    · have he : r - 2 + 1 = r - 1 := by omega
      rw [he]; exact h2
    · exact h3
  · rintro ⟨r, c, hr, hc, h1, h2, h3⟩
    refine ⟨r + 2, by omega, c, by omega, h1, ?_, ?_⟩
    · have he : r + 2 - 1 = r + 1 := by omega
      rw [he]; exact h2
    · have he : r + 2 - 2 = r := by omega
      rw [he]; exact h3

lemma checkWinConnect3_iff (b : BoardFn) (p : Player) :
    checkWinConnect3 b p = true ↔ connectThreeSpec b p := by
  unfold checkWinConnect3 connectThreeSpec
  rw [Bool.or_eq_true, Bool.or_eq_true, Bool.or_eq_true,
    connect3_rows_iff, connect3_cols_iff, connect3_diagDR_iff, connect3_diagUR_iff,
    or_assoc, or_assoc]

/-- C5: the `connect_3` win evaluation declares the player the winner exactly
when the board holds three consecutive cells of that player in a row, a
column, or a diagonal in either direction — and declares nothing otherwise. -/
theorem C5_theorem (b : BoardFn) (p : Player) :
    (checkWin .connect_3 b p = some (some p) ↔ connectThreeSpec b p) ∧
    (checkWin .connect_3 b p = none ↔ ¬ connectThreeSpec b p) := by
  cases hb : checkWinConnect3 b p with
  | false =>
    have hns : ¬ connectThreeSpec b p := by
      rw [← checkWinConnect3_iff]; simp [hb]
    simp [checkWin, hb, hns]
  | true =>
    have hs : connectThreeSpec b p := (checkWinConnect3_iff b p).mp hb
    simp [checkWin, hb, hs]

/-- Witness for C5: a down-right diagonal triple is detected. -/
theorem C5_witness : checkWin .connect_3 diagBoard .player1 = some (some .player1) :=
  (C5_theorem diagBoard .player1).1.mpr
    (Or.inr (Or.inr (Or.inl
      ⟨0, 0, by omega, by omega, by decide, by decide, by decide⟩)))

lemma afterClickNoWin_not_mof (oldBoard : BoardFn) (s1 : AppState)
    (h : s1.winCondition ≠ .most_on_full) :
    afterClickNoWin oldBoard s1 = { s1 with pendingHandoff := true } := by
  unfold afterClickNoWin
  rw [if_neg]
  rintro ⟨h1, -⟩
  exact h h1

lemma afterClickNoWin_boardState (oldBoard : BoardFn) (s1 : AppState) :
    (afterClickNoWin oldBoard s1).boardState = s1.boardState := by
  unfold afterClickNoWin
  split
  · split <;> rfl
  · rfl

/-- Guard failures of `handleCellClick` leave the state unchanged. -/
lemma handleCellClick_guard (s : AppState) (cellValue : Int) (row col : Nat)
    (h : s.spinner1Value = none ∨ s.spinner2Value = none ∨
      isAnswerState s.gameState = false) :
    handleCellClick cellValue row col s = s := by
  unfold handleCellClick
  cases h1 : s.spinner1Value with
  | none => rfl
  | some v1 =>
    cases h2 : s.spinner2Value with
    | none => rfl
    | some v2 =>
      dsimp only
      rcases h with h | h | h
      · rw [h1] at h; exact Option.noConfusion h
      · rw [h2] at h; exact Option.noConfusion h
      · rw [if_neg]
        rintro ⟨ha, -⟩
        rw [h] at ha
        exact Bool.false_ne_true ha

/-- An incorrect (or undefined-result) selection reaches the rejected branch:
highlight plus the post-click follow-up on the unchanged board. -/
lemma handleCellClick_incorrect_raw (s : AppState) (cellValue : Int) (row col : Nat)
    (v1 v2 : Int)
    (hans : isAnswerState s.gameState = true)
    (hs1 : s.spinner1Value = some v1) (hs2 : s.spinner2Value = some v2)
    (hne : ∀ res, getCorrectAnswer s.operation v1 v2 = some res → cellValue ≠ res) :
    handleCellClick cellValue row col s =
      afterClickNoWin s.boardState { s with flashingCell := some (row, col) } := by
  have hno : s.gameState ≠ .GAME_OVER := isAnswerState_ne_gameOver hans
  unfold handleCellClick
  rw [hs1, hs2]
  simp only [hans, hno, ne_eq, not_false_eq_true, and_self, if_true, true_and, if_pos]
  have hcorr :
      (match getCorrectAnswer s.operation v1 v2 with
        | some res => decide (cellValue = res)
        | none => false) = false := by
    cases hgc : getCorrectAnswer s.operation v1 v2 with
    | none => rfl
    | some res => simpa using hne res hgc
  rw [hcorr]
  simp only [Bool.false_eq_true, if_false]

/-- A correct selection claims the cell and then resolves the win check. -/
lemma handleCellClick_correct (s : AppState) (cellValue : Int) (row col : Nat)
    (v1 v2 : Int)
    (hans : isAnswerState s.gameState = true)
    (hs1 : s.spinner1Value = some v1) (hs2 : s.spinner2Value = some v2)
    (hcv : getCorrectAnswer s.operation v1 v2 = some cellValue) :
    handleCellClick cellValue row col s =
      (match checkWin s.winCondition
          (setCell s.boardState row col s.currentPlayer) s.currentPlayer with
        | some w =>
          { s with boardState := setCell s.boardState row col s.currentPlayer,
                   winner := w, gameState := .GAME_OVER }
        | none =>
          afterClickNoWin s.boardState
            { s with boardState := setCell s.boardState row col s.currentPlayer }) := by
  have hno : s.gameState ≠ .GAME_OVER := isAnswerState_ne_gameOver hans
  unfold handleCellClick
  rw [hs1, hs2]
  dsimp only
  rw [if_pos ⟨hans, hno⟩]
  rw [hcv]
  dsimp only
  rw [if_pos (show (decide (cellValue = cellValue)) = true by simp)]

/-- The board after any cell click: either untouched, or (exactly on a
correct answer) the single-cell update claiming the clicked position for the
current player. -/
lemma handleCellClick_boardState (s : AppState) (cellValue : Int) (row col : Nat) :
    (handleCellClick cellValue row col s).boardState = s.boardState ∨
    ((handleCellClick cellValue row col s).boardState =
        setCell s.boardState row col s.currentPlayer ∧
      ∃ v1 v2, s.spinner1Value = some v1 ∧ s.spinner2Value = some v2 ∧
        getCorrectAnswer s.operation v1 v2 = some cellValue) := by
  cases h1 : s.spinner1Value with
  | none => left; rw [handleCellClick_guard s cellValue row col (Or.inl h1)]
  | some v1 =>
    cases h2 : s.spinner2Value with
    | none => left; rw [handleCellClick_guard s cellValue row col (Or.inr (Or.inl h2))]
    | some v2 =>
      by_cases hans : isAnswerState s.gameState = true
      · cases hgc : getCorrectAnswer s.operation v1 v2 with
        | none =>
          left
          rw [handleCellClick_incorrect_raw s cellValue row col v1 v2 hans h1 h2
            (by intro res hr; rw [hgc] at hr; exact Option.noConfusion hr)]
          rw [afterClickNoWin_boardState]
        | some res =>
          by_cases hres : cellValue = res
          · right
            subst hres
            rw [handleCellClick_correct s cellValue row col v1 v2 hans h1 h2 hgc]
            refine ⟨?_, v1, v2, rfl, rfl, hgc⟩
            cases hcw : checkWin s.winCondition
                (setCell s.boardState row col s.currentPlayer) s.currentPlayer with
            | some w => rfl
            | none => rw [afterClickNoWin_boardState]
          · left
            rw [handleCellClick_incorrect_raw s cellValue row col v1 v2 hans h1 h2
              (by intro res2 hr; rw [hgc] at hr;
                  exact fun hcv => hres (hcv.trans (Option.some.inj hr).symm))]
            rw [afterClickNoWin_boardState]
      · left
        rw [handleCellClick_guard s cellValue row col
          (Or.inr (Or.inr (by revert hans; cases isAnswerState s.gameState <;> simp)))]

/-- C1 fails as stated: in a reachable multiplication game, player 1 claims
the cell at row 2, column 2 (value 56, from 7 × 8); on player 2's next turn
the wheels produce 7 and 8 again, player 2 clicks the same cell — which the
presentation does not disable — and the engine overwrites player 1's claim. -/
theorem C1_counterexample :
    cexAfterP1Claim.boardState 2 2 = some .player1 ∧
    cexBeforeP2Claim.gameState = .PLAYER_2_ANSWER ∧
    cexBeforeP2Claim.boardState 2 2 = some .player1 ∧
    cexAfterP2Claim.boardState 2 2 = some .player2 := by
  decide

/-- C1 amended: a claimed cell is never cleared except by a full restart, and
no handler other than a correct cell click ever changes the board; but the
engine does not ignore claims on already-claimed cells — whenever a cell
click changes any board cell, the changed cell is exactly the clicked one,
it is set to the current player, and the clicked value was the correct
answer, regardless of whether the cell was already claimed. -/
theorem C1_theorem :
    (∀ (s : AppState) (cellValue : Int) (row col r c : Nat),
      (handleCellClick cellValue row col s).boardState r c ≠ s.boardState r c →
        r = row ∧ c = col ∧
        (handleCellClick cellValue row col s).boardState r c = some s.currentPlayer ∧
        ∃ v1 v2, s.spinner1Value = some v1 ∧ s.spinner2Value = some v2 ∧
          getCorrectAnswer s.operation v1 v2 = some cellValue) ∧
    (∀ (s : AppState) (cellValue : Int) (row col r c : Nat),
      (handleCellClick cellValue row col s).boardState r c = none →
      s.boardState r c = none) ∧
    (∀ (s : AppState) (r c : Nat), (handleRestart s).boardState r c = none) ∧
    (∀ (s : AppState) (r1 r2 rr : Nat) (v : Int),
      (handleSpin1Start r1 r2 s).boardState = s.boardState ∧
      (handleSpin1End v s).boardState = s.boardState ∧
      (handleSpin2Start s).boardState = s.boardState ∧
      (handleSpin2End v s).boardState = s.boardState ∧
      (changeTurn rr s).boardState = s.boardState) := by
  refine ⟨?_, ?_, ?_, ?_⟩
  · intro s cellValue row col r c hne
    rcases handleCellClick_boardState s cellValue row col with h | ⟨h, v1, v2, h1, h2, hgc⟩
    · exact absurd (congrFun (congrFun h r) c) hne
    · rw [congrFun (congrFun h r) c] at hne ⊢
      simp only [setCell] at hne ⊢
      by_cases hc : r = row ∧ c = col
      · refine ⟨hc.1, hc.2, ?_, v1, v2, h1, h2, hgc⟩
        rw [if_pos hc]
      · rw [if_neg hc] at hne
        exact absurd rfl hne
  · intro s cellValue row col r c h
    rcases handleCellClick_boardState s cellValue row col with hb | ⟨hb, -⟩
    · rw [congrFun (congrFun hb r) c] at h
      exact h
    · rw [congrFun (congrFun hb r) c] at h
      simp only [setCell] at h
      by_cases hc : r = row ∧ c = col
      · rw [if_pos hc] at h
        exact Option.noConfusion h
      · rw [if_neg hc] at h
        exact h
  · intro s r c
    rfl
  · intro s r1 r2 rr v
    refine ⟨?_, rfl, ?_, rfl, (changeTurn_fields rr s).2.2.2.2.2.2.1⟩
    · unfold handleSpin1Start
      split
      · rfl
      · dsimp only
        split
        · rfl
        · split <;> rfl
    · unfold handleSpin2Start
      split <;> rfl

/-- Witness for C1's amended theorem at the concrete overwrite of
`C1_counterexample` and a restart. -/
theorem C1_witness :
    ((2 : Nat) = 2 ∧ (2 : Nat) = 2 ∧
      (handleCellClick 56 2 2 cexBeforeP2Claim).boardState 2 2 =
        some cexBeforeP2Claim.currentPlayer ∧
      ∃ v1 v2, cexBeforeP2Claim.spinner1Value = some v1 ∧
        cexBeforeP2Claim.spinner2Value = some v2 ∧
        getCorrectAnswer cexBeforeP2Claim.operation v1 v2 = some 56) ∧
    (handleRestart cexAfterP2Claim).boardState 2 2 = none :=
  ⟨C1_theorem.1 cexBeforeP2Claim 56 2 2 2 2 (by decide),
   C1_theorem.2.2.1 cexAfterP2Claim 2 2⟩

/-- A correct selection whose claim wins: board update, winner, game over. -/
lemma handleCellClick_correct_win (s : AppState) (cellValue : Int) (row col : Nat)
    (v1 v2 : Int) (w : Option Player)
    (hans : isAnswerState s.gameState = true)
    (hs1 : s.spinner1Value = some v1) (hs2 : s.spinner2Value = some v2)
    (hcv : getCorrectAnswer s.operation v1 v2 = some cellValue)
    (hcw : checkWin s.winCondition
      (setCell s.boardState row col s.currentPlayer) s.currentPlayer = some w) :
    handleCellClick cellValue row col s =
      { s with boardState := setCell s.boardState row col s.currentPlayer,
               winner := w, gameState := .GAME_OVER } := by
  rw [handleCellClick_correct s cellValue row col v1 v2 hans hs1 hs2 hcv, hcw]

/-- A correct selection whose claim does not win, outside `most_on_full`:
board update plus scheduled handoff. -/
lemma handleCellClick_correct_noWin (s : AppState) (cellValue : Int) (row col : Nat)
    (v1 v2 : Int)
    (hans : isAnswerState s.gameState = true)
    (hs1 : s.spinner1Value = some v1) (hs2 : s.spinner2Value = some v2)
    (hcv : getCorrectAnswer s.operation v1 v2 = some cellValue)
    (hcw : checkWin s.winCondition
      (setCell s.boardState row col s.currentPlayer) s.currentPlayer = none)
    (hwcne : s.winCondition ≠ .most_on_full) :
    handleCellClick cellValue row col s =
      { s with boardState := setCell s.boardState row col s.currentPlayer,
               pendingHandoff := true } := by
  rw [handleCellClick_correct s cellValue row col v1 v2 hans hs1 hs2 hcv, hcw]
  unfold afterClickNoWin
  rw [if_neg]
  rintro ⟨h1, -⟩
  exact hwcne h1

/-- C10: under `first_to_5` and `connect_3`, a cell click in an answer phase
ends the game exactly when the selection is correct and the claim satisfies
the win condition; in every other case — including a fully-claimed board with
no winning configuration — the click schedules a handoff whose firing moves
the machine to the other player's Spin1 phase, never to a drawn game over. -/
theorem C10_theorem (s : AppState) (cellValue : Int) (row col : Nat)
    (v1 v2 : Int) (r : Nat) (p : Player)
    (hwc : s.winCondition = .first_to_5 ∨ s.winCondition = .connect_3)
    (hcp : s.currentPlayer = p)
    (hans : s.gameState = answerStateOf p)
    (hs1 : s.spinner1Value = some v1) (hs2 : s.spinner2Value = some v2) :
    ((handleCellClick cellValue row col s).gameState = .GAME_OVER ↔
      (getCorrectAnswer s.operation v1 v2 = some cellValue ∧
        checkWin s.winCondition (setCell s.boardState row col p) p =
          some (some p))) ∧
    ((handleCellClick cellValue row col s).gameState ≠ .GAME_OVER →
      (handleCellClick cellValue row col s).pendingHandoff = true ∧
      (changeTurn r (handleCellClick cellValue row col s)).gameState =
        spin1StateOf (otherPlayer p)) := by
  subst hcp
  have hans' : isAnswerState s.gameState = true := by
    rw [hans]; cases s.currentPlayer <;> rfl
  have hno : s.gameState ≠ .GAME_OVER := isAnswerState_ne_gameOver hans'
  have hwcne : s.winCondition ≠ .most_on_full := by
    rcases hwc with h | h <;> rw [h] <;> decide
  have hmf : s.winCondition = .most_on_full → boardFull s.boardState = false :=
    fun h => absurd h hwcne
  cases hgc : getCorrectAnswer s.operation v1 v2 with
  | none =>
    rw [handleCellClick_incorrect s cellValue row col v1 v2 hans' hs1 hs2
      (by intro res hr; rw [hgc] at hr; exact Option.noConfusion hr) hmf]
    constructor
    · constructor
      · intro h; exact absurd h hno
      · rintro ⟨hc, -⟩; exact Option.noConfusion hc
    · intro _
      refine ⟨rfl, ?_⟩
      have h1 := (changeTurn_fields r
        ({ s with flashingCell := some (row, col), pendingHandoff := true })).1
      rw [h1]
  | some res =>
    by_cases hres : cellValue = res
    · subst hres
      cases hcw : checkWin s.winCondition
          (setCell s.boardState row col s.currentPlayer) s.currentPlayer with
      | some w =>
        rw [handleCellClick_correct_win s cellValue row col v1 v2 w hans' hs1 hs2 hgc hcw]
        have hw : w = some s.currentPlayer := by
          rcases hwc with h | h <;> rw [h] at hcw <;>
            simp only [checkWin] at hcw <;> split at hcw
          · exact (Option.some.inj hcw).symm
          · exact Option.noConfusion hcw
          · exact (Option.some.inj hcw).symm
          · exact Option.noConfusion hcw
        constructor
        · constructor
          · intro _
            exact ⟨rfl, by rw [hw]⟩
          · intro _; rfl
        · intro h; exact absurd rfl h
      | none =>
        rw [handleCellClick_correct_noWin s cellValue row col v1 v2 hans' hs1 hs2 hgc hcw hwcne]
        constructor
        · constructor
          · intro h; exact absurd h hno
          · rintro ⟨-, hc2⟩; exact Option.noConfusion hc2
        · intro _
          refine ⟨rfl, ?_⟩
          have h1 := (changeTurn_fields r
            ({ s with boardState := setCell s.boardState row col s.currentPlayer,
                      pendingHandoff := true })).1
          rw [h1]
    · rw [handleCellClick_incorrect s cellValue row col v1 v2 hans' hs1 hs2
        (by intro res2 hr; rw [hgc] at hr;
            exact fun hcv => hres (hcv.trans (Option.some.inj hr).symm)) hmf]
      constructor
      · constructor
        · intro h; exact absurd h hno
        · rintro ⟨hc, -⟩
          exact absurd (Option.some.inj hc).symm hres
      · intro _
        refine ⟨rfl, ?_⟩
        have h1 := (changeTurn_fields r
          ({ s with flashingCell := some (row, col), pendingHandoff := true })).1
        rw [h1]

/-- Witness for C10: a correct but non-winning first claim under
`first_to_5`. -/
theorem C10_witness :
    ((handleCellClick 56 2 2 sampleAnswerState).gameState = .GAME_OVER ↔
      (getCorrectAnswer sampleAnswerState.operation 7 8 = some 56 ∧
        checkWin sampleAnswerState.winCondition
          (setCell sampleAnswerState.boardState 2 2 .player1) .player1 =
          some (some .player1))) ∧
    ((handleCellClick 56 2 2 sampleAnswerState).gameState ≠ .GAME_OVER →
      (handleCellClick 56 2 2 sampleAnswerState).pendingHandoff = true ∧
      (changeTurn 0 (handleCellClick 56 2 2 sampleAnswerState)).gameState =
        spin1StateOf (otherPlayer .player1)) :=
  C10_theorem sampleAnswerState 56 2 2 7 8 0 .player1 (Or.inl rfl) rfl rfl rfl rfl

/-- Witness for C2's amended theorem: the first multiplication row has length
7, and the board value 56 is positive and producible. -/
theorem C2_witness :
    (([30, 18, 63, 64, 28, 7, 8] : List Int).length = 7) ∧
    (0 < (56 : ℤ) ∧ producible .mul 56) :=
  ⟨(C2_theorem.1 .mul).2.1 [30, 18, 63, 64, 28, 7, 8] (by decide),
   C2_theorem.2.1 56 (by decide)⟩
